import Mathlib

/-
  Verification development for the STL-to-ASCII terminal renderer
  (src/stl_to_ascii.js).

  Shallow embedding conventions:
  * JavaScript numbers are idealized as exact arithmetic: ℚ for the file
    parser and the integer-valued brightness indices, ℝ for the geometry
    and lighting pipeline.  NaN (and any other non-finite parse result)
    is modelled as `none : Option ℚ` on the parser side.
  * Node `Buffer` contents are `List ℕ` (one byte per entry, each < 256).
    `Buffer.toString()` is modelled byte-wise by `Char.ofNat`, which is
    exact for ASCII inputs (the only ones the claims exercise).
  * JavaScript strings on the text-parser side are `List Char`; the
    helpers `splitOnChar`, `trimChars`, `jsSplitWs` model
    `String.prototype.split('\n')`, `trim()` and `split(/\s+/)`.
  * A thrown `TypeError` (reading a property of `undefined`) is modelled
    by `Except.error`; normal returns by `Except.ok`.
  * The mutable renderer object is a `TerminalRenderer` record threaded
    explicitly; its 2D buffers are total functions `ℤ → ℤ → _` indexed
    `[y][x]`, with `Infinity` in the depth buffer modelled as `none`.
-/

/-! ## Text-parser string primitives (models of the JS string operations) -/

/-- Model of `text.split('\n')`: split a character list at every newline
separator; `""` splits to `[""]`, and a trailing separator yields a
trailing empty piece, as in JavaScript. -/
def splitOnChar (sep : Char) : List Char → List (List Char)
  | [] => [[]]
  | c :: rest =>
    match splitOnChar sep rest with
    | [] => [[c]]
    | h :: t => if c = sep then [] :: h :: t else (c :: h) :: t

/-- Model of `String.prototype.trim()`: drop whitespace from both ends. -/
def trimChars (s : List Char) : List Char :=
  ((s.dropWhile Char.isWhitespace).reverse.dropWhile Char.isWhitespace).reverse

/-- Model of `s.startsWith(pat)`: `listStartsWith pat s`. -/
def listStartsWith : List Char → List Char → Bool
  | [], _ => true
  | _ :: _, [] => false
  | p :: ps, c :: cs => p == c && listStartsWith ps cs

/-- Maximal runs of non-whitespace characters; `acc` is the current token
accumulated in reverse. -/
def wsTokensGo (acc : List Char) : List Char → List (List Char)
  | [] => if acc.isEmpty then [] else [acc.reverse]
  | c :: rest =>
    if c.isWhitespace then
      if acc.isEmpty then wsTokensGo [] rest else acc.reverse :: wsTokensGo [] rest
    else wsTokensGo (c :: acc) rest

/-- Model of `s.split(/\s+/)`: whitespace runs collapse to single
separators, but a leading or trailing run still contributes an empty
string, and `""` splits to `[""]`, as in JavaScript. -/
def jsSplitWs (s : List Char) : List (List Char) :=
  match s with
  | [] => [[]]
  | c :: _ =>
    let core := wsTokensGo [] s
    let withLead := if c.isWhitespace then [] :: core else core
    match s.getLast? with
    | some d => if d.isWhitespace then withLead ++ [[]] else withLead
    | none => withLead

/-- Numeric value of a digit list (most significant first). -/
def digitsToNat (l : List Char) : ℕ :=
  l.foldl (fun a c => a * 10 + (c.toNat - 48)) 0

/-- Model of `parseFloat` applied to an optional token (`none` models the
`undefined` produced by an out-of-range array access; the result `none`
models `NaN`).  Parses an optional sign, integer digits and an optional
fractional part; exponents and `"Infinity"`, which no claim exercises,
are folded into the non-finite result `none`. -/
def parseFloat : Option (List Char) → Option ℚ
  | none => none
  | some cs =>
    let signAndRest : ℚ × List Char :=
      match cs with
      | '-' :: r => (-1, r)
      | '+' :: r => (1, r)
      | _ => (1, cs)
    let sign := signAndRest.1
    let cs1 := signAndRest.2
    let ipDigits := cs1.takeWhile Char.isDigit
    let rest := cs1.dropWhile Char.isDigit
    match rest with
    | '.' :: r2 =>
      let fpDigits := r2.takeWhile Char.isDigit
      if ipDigits.isEmpty && fpDigits.isEmpty then none
      else some (sign * ((digitsToNat ipDigits : ℚ) +
        (digitsToNat fpDigits : ℚ) / (10 : ℚ) ^ fpDigits.length))
    | _ => if ipDigits.isEmpty then none else some (sign * (digitsToNat ipDigits : ℚ))

/-! ## Parsed mesh data (values carried by the loader) -/

/-- A parsed vector: components are `Option ℚ`, `none` modelling `NaN`. -/
structure JVec where
  x : Option ℚ
  y : Option ℚ
  z : Option ℚ
deriving DecidableEq, Repr

/-- A triangle as produced by the STL loader (the `Triangle` constructor
with an explicitly supplied normal; a `NaN` normal object is truthy in
JavaScript, so `calculateNormal` is never invoked by the parsers). -/
structure STriangle where
  v1 : JVec
  v2 : JVec
  v3 : JVec
  normal : JVec
deriving DecidableEq, Repr

/-- Little-endian unsigned 32-bit read, `data.readUInt32LE(offset)`. -/
def readUInt32LE (data : List ℕ) (offset : ℕ) : ℕ :=
  data.getD offset 0 + 2 ^ 8 * data.getD (offset + 1) 0 +
    2 ^ 16 * data.getD (offset + 2) 0 + 2 ^ 24 * data.getD (offset + 3) 0

/-- Little-endian IEEE-754 binary32 read, `data.readFloatLE(offset)`;
`none` models a non-finite result (NaN or an infinity). -/
def readFloatLE (data : List ℕ) (offset : ℕ) : Option ℚ :=
  let bits : ℕ := readUInt32LE data offset
  let sign : ℚ := if bits / 2 ^ 31 % 2 = 1 then -1 else 1
  let e : ℕ := bits / 2 ^ 23 % 2 ^ 8
  let m : ℕ := bits % 2 ^ 23
  if e = 2 ^ 8 - 1 then none
  else if e = 0 then some (sign * (m : ℚ) / 2 ^ 149)
  else some (sign * ((2 ^ 23 + m : ℕ) : ℚ) * (2 : ℚ) ^ ((e : ℤ) - 150))

/-- Model of `Buffer.prototype.toString()` (exact on ASCII bytes). -/
def bytesToChars (data : List ℕ) : List Char :=
  data.map Char.ofNat

namespace STLParser

/-- The binary-detection condition of `parseSTL` (src lines 77–81):
length over 84 and an exact match of `80 + 4 + triangleCount * 50`. -/
def stlDetectsBinary (data : List ℕ) : Bool :=
  if 84 < data.length then
    decide (data.length = 80 + 4 + readUInt32LE data 80 * 50)
  else false

/-- Translation of `parseBinarySTL` (src lines 90–126): read `triangleCount` records of
50 bytes each, starting at offset 84. -/
def parseBinarySTL (data : List ℕ) : List STriangle :=
  let triangleCount := readUInt32LE data 80
  (List.range triangleCount).map (fun i =>
    let offset := 84 + 50 * i
    { normal := ⟨readFloatLE data offset, readFloatLE data (offset + 4),
        readFloatLE data (offset + 8)⟩
      v1 := ⟨readFloatLE data (offset + 12), readFloatLE data (offset + 16),
        readFloatLE data (offset + 20)⟩
      v2 := ⟨readFloatLE data (offset + 24), readFloatLE data (offset + 28),
        readFloatLE data (offset + 32)⟩
      v3 := ⟨readFloatLE data (offset + 36), readFloatLE data (offset + 40),
        readFloatLE data (offset + 44)⟩ })

/-- Vertex extraction from one vertex line: `line.split(/\s+/)` and
`parseFloat` of tokens 1..3 (src lines 152–157). -/
def parseVertexLine (l : List Char) : JVec :=
  let ps := jsSplitWs l
  ⟨parseFloat (ps.get? 1), parseFloat (ps.get? 2), parseFloat (ps.get? 3)⟩

/-- The `while` loop of `parseAsciiSTL` (src lines 132–168); `fuel` is a
structural bound on the number of loop iterations (each iteration
advances `i` by at least 1, so any `fuel > lines.length` is adequate);
it exists only to make the recursion structural.  Reading a vertex line
past the end of `lines` is the JavaScript `TypeError` on
`undefined.split`, modelled by `Except.error`. -/
def parseAsciiGo (lines : List (List Char)) : ℕ → ℕ → Except String (List STriangle)
  | 0, _ => .ok []
  | fuel + 1, i =>
    if i < lines.length then
      let line := lines.getD i []
      if listStartsWith ("facet normal".toList) line then
        let normalParts := jsSplitWs line
        let normal : JVec := ⟨parseFloat (normalParts.get? 2),
          parseFloat (normalParts.get? 3), parseFloat (normalParts.get? 4)⟩
        match lines.get? (i + 2), lines.get? (i + 3), lines.get? (i + 4) with
        | some l1, some l2, some l3 =>
          (parseAsciiGo lines fuel (i + 7)).map
            (fun rest => ⟨parseVertexLine l1, parseVertexLine l2,
              parseVertexLine l3, normal⟩ :: rest)
        | _, _, _ => .error "TypeError"
      else parseAsciiGo lines fuel (i + 1)
    else .ok []

/-- Translation of `parseAsciiSTL` (src lines 128–171): split into trimmed lines, then
scan for `facet normal` blocks. -/
def parseAsciiSTL (text : List Char) : Except String (List STriangle) :=
  let lines := (splitOnChar '\n' text).map trimChars
  parseAsciiGo lines (lines.length + 1) 0

/-- Translation of `parseSTL` (src lines 73–88): binary when the detection condition
holds, otherwise the text parser on the byte-wise decoded string. -/
def parseSTL (data : List ℕ) : Except String (List STriangle) :=
  if stlDetectsBinary data then .ok (parseBinarySTL data)
  else parseAsciiSTL (bytesToChars data)

end STLParser

/-! ## Temporal blending (the per-cell index recurrence) -/

/-- The temporal blend of `rasterizeTriangle` (src lines 332–337): keep
the computed index when the previous frame holds the `-1` sentinel,
otherwise `Math.round(prev * 0.3 + current * 0.7)`.  Mathlib's `round`
is `⌊q + 1/2⌋`, which matches `Math.round` (halves toward +∞). -/
def blendIdx (prevIdx effectiveIndex : ℤ) : ℤ :=
  if prevIdx ≠ -1 then round ((prevIdx : ℚ) * 0.3 + (effectiveIndex : ℚ) * 0.7)
  else effectiveIndex

/-- Emitted index of one fixed cell that is covered on every frame with
the constant computed index `v`, starting from previous-frame value
`p0`: `render` (src line 384) carries each emitted index into the next
frame's `prevIndexBuffer`, so the emissions iterate `blendIdx · v`. -/
def emitSeq (p0 v : ℤ) : ℕ → ℤ
  | 0 => blendIdx p0 v
  | n + 1 => blendIdx (emitSeq p0 v n) v

/-! ## Vector math (class `Vector3`, src lines 11–51), over ℝ.
The renderer-side embedding lives in the `StlToAscii` namespace (the
bare name `Vector3` is taken by Mathlib). -/

namespace StlToAscii

/-- The renderer-side 3-component vector (components idealized as ℝ). -/
structure Vector3 where
  x : ℝ
  y : ℝ
  z : ℝ

noncomputable def Vector3.add (v w : Vector3) : Vector3 := ⟨v.x + w.x, v.y + w.y, v.z + w.z⟩

noncomputable def Vector3.subtract (v w : Vector3) : Vector3 := ⟨v.x - w.x, v.y - w.y, v.z - w.z⟩

noncomputable def Vector3.multiply (v : Vector3) (scalar : ℝ) : Vector3 :=
  ⟨v.x * scalar, v.y * scalar, v.z * scalar⟩

noncomputable def Vector3.dot (v w : Vector3) : ℝ := v.x * w.x + v.y * w.y + v.z * w.z

noncomputable def Vector3.cross (v w : Vector3) : Vector3 :=
  ⟨v.y * w.z - v.z * w.y, v.z * w.x - v.x * w.z, v.x * w.y - v.y * w.x⟩

/-- Translation of `normalize` (src lines 42–46): the zero vector maps to itself. -/
noncomputable def Vector3.normalize (v : Vector3) : Vector3 :=
  let length := Real.sqrt (v.x * v.x + v.y * v.y + v.z * v.z)
  if length = 0 then ⟨0, 0, 0⟩ else ⟨v.x / length, v.y / length, v.z / length⟩

noncomputable def Vector3.length (v : Vector3) : ℝ :=
  Real.sqrt (v.x * v.x + v.y * v.y + v.z * v.z)

/-! ## Mesh model (class `Triangle`, src lines 53–70) -/

/-- Translation of `Triangle.calculateNormal` (src lines 65–69). -/
noncomputable def calculateNormal (v1 v2 v3 : Vector3) : Vector3 :=
  ((v2.subtract v1).cross (v3.subtract v1)).normalize

/-- A renderer-side triangle: vertices, face normal, and the optional
per-vertex smoothed normals (`null` until the normalization pass). -/
structure Triangle where
  v1 : Vector3
  v2 : Vector3
  v3 : Vector3
  normal : Vector3
  vn1 : Option Vector3
  vn2 : Option Vector3
  vn3 : Option Vector3

/-- The `Triangle` constructor (src lines 54–63): compute the face normal
only when none is supplied. -/
noncomputable def Triangle.make (v1 v2 v3 : Vector3) (normal : Option Vector3) : Triangle :=
  ⟨v1, v2, v3, normal.getD (calculateNormal v1 v2 v3), none, none, none⟩

/-! ## Rotation matrices (src lines 392–408) -/

/-- 3×3 matrices, the representation of the `[[..],[..],[..]]` arrays. -/
abbrev Mat3 := Matrix (Fin 3) (Fin 3) ℝ

/-- Translation of `applyMatrix` (src lines 364–370): left multiplication by the matrix. -/
noncomputable def applyMatrix (vector : Vector3) (matrix : Mat3) : Vector3 :=
  ⟨vector.x * matrix 0 0 + vector.y * matrix 0 1 + vector.z * matrix 0 2,
   vector.x * matrix 1 0 + vector.y * matrix 1 1 + vector.z * matrix 1 2,
   vector.x * matrix 2 0 + vector.y * matrix 2 1 + vector.z * matrix 2 2⟩

/-- Truncation toward zero, the integer part used by the JS `%` operator. -/
noncomputable def rtrunc (x : ℝ) : ℤ := if 0 ≤ x then ⌊x⌋ else ⌈x⌉

/-- The JavaScript remainder `a % b`: `a - b * trunc(a / b)`. -/
noncomputable def jsRem (a b : ℝ) : ℝ := a - b * (rtrunc (a / b) : ℤ)

/-- Translation of `createRotationMatrix` (src lines 392–408): angles reduced with `%`
against a full turn, then the combined (Z then Y then X) matrix literal. -/
noncomputable def createRotationMatrix (angleX angleY angleZ : ℝ) : Mat3 :=
  let aX := jsRem angleX (2 * Real.pi)
  let aY := jsRem angleY (2 * Real.pi)
  let aZ := jsRem angleZ (2 * Real.pi)
  let cosX := Real.cos aX
  let sinX := Real.sin aX
  let cosY := Real.cos aY
  let sinY := Real.sin aY
  let cosZ := Real.cos aZ
  let sinZ := Real.sin aZ
  !![cosY * cosZ, -cosY * sinZ, sinY;
     sinX * sinY * cosZ + cosX * sinZ, -sinX * sinY * sinZ + cosX * cosZ, -sinX * cosY;
     -cosX * sinY * cosZ + sinX * sinZ, cosX * sinY * sinZ + sinX * cosZ, cosX * cosY]

/-! ## The terminal renderer (class `TerminalRenderer`, src lines 174–390) -/

/-- The result record of `projectToScreen`: screen coordinates are the
integers produced by `Math.floor` (or the `-1` behind-camera sentinel),
the depth component stays real. -/
structure ScreenPoint where
  x : ℤ
  y : ℤ
  z : ℝ

/-- The mutable renderer state.  Buffers are total functions indexed
`[y][x]`; `none` in the depth buffer models `Infinity`. -/
structure TerminalRenderer where
  width : ℕ
  height : ℕ
  usePerPixelLighting : Bool
  charBuffer : ℤ → ℤ → Char
  indexBuffer : ℤ → ℤ → ℤ
  prevIndexBuffer : ℤ → ℤ → ℤ
  depthBuffer : ℤ → ℤ → Option ℝ

/-- The character ramp (src line 197). -/
def asciiChars : String := " .:-+*=%@#"

/-- Translation of `clear` (src lines 200–208): reset the in-grid entries of the char,
index and depth buffers; `prevIndexBuffer` is deliberately kept. -/
def TerminalRenderer.clear (r : TerminalRenderer) : TerminalRenderer :=
  { r with
    charBuffer := fun y x =>
      if 0 ≤ y ∧ y < r.height ∧ 0 ≤ x ∧ x < r.width then ' ' else r.charBuffer y x
    indexBuffer := fun y x =>
      if 0 ≤ y ∧ y < r.height ∧ 0 ≤ x ∧ x < r.width then -1 else r.indexBuffer y x
    depthBuffer := fun y x =>
      if 0 ≤ y ∧ y < r.height ∧ 0 ≤ x ∧ x < r.width then none else r.depthBuffer y x }

/-- Translation of `projectToScreen` (src lines 210–239).  The unused `screenAspect`
local of the source is omitted. -/
noncomputable def TerminalRenderer.projectToScreen (r : TerminalRenderer)
    (point : Vector3) (cameraDistance : ℝ) : ScreenPoint :=
  let z := point.z + cameraDistance
  if z ≤ 0.1 then ⟨-1, -1, point.z⟩
  else
    let fov := 45 * Real.pi / 180
    let charAspect := (2.0 : ℝ)
    let scale := Real.tan (fov / 2) * z
    let screenX := point.x / scale * ((r.width : ℝ) * 0.3) + (r.width : ℝ) / 2
    let screenY := -point.y / scale * ((r.height : ℝ) * 0.3) * charAspect + (r.height : ℝ) / 2
    ⟨⌊screenX + 0.5⌋, ⌊screenY + 0.25⌋, point.z⟩

/-- The barycentric denominator of `isPointInTriangle` (src line 354). -/
noncomputable def barycentricDenom (p1 p2 p3 : ScreenPoint) : ℝ :=
  ((p2.y : ℝ) - (p3.y : ℝ)) * ((p1.x : ℝ) - (p3.x : ℝ)) +
    ((p3.x : ℝ) - (p2.x : ℝ)) * ((p1.y : ℝ) - (p3.y : ℝ))

/-- The barycentric denominator recomputed inside the per-pixel branch of
`rasterizeTriangle` (src line 316). -/
noncomputable def rasterBarycentricDenom (p1 p2 p3 : ScreenPoint) : ℝ :=
  ((p2.y : ℝ) - (p3.y : ℝ)) * ((p1.x : ℝ) - (p3.x : ℝ)) +
    ((p3.x : ℝ) - (p2.x : ℝ)) * ((p1.y : ℝ) - (p3.y : ℝ))

/-- Translation of `isPointInTriangle` (src lines 352–362). -/
noncomputable def isPointInTriangle (px py : ℝ) (p1 p2 p3 : ScreenPoint) : Bool :=
  let denom := barycentricDenom p1 p2 p3
  if |denom| < 0.001 then false
  else
    let a := (((p2.y : ℝ) - (p3.y : ℝ)) * (px - (p3.x : ℝ)) +
      ((p3.x : ℝ) - (p2.x : ℝ)) * (py - (p3.y : ℝ))) / denom
    let b := (((p3.y : ℝ) - (p1.y : ℝ)) * (px - (p3.x : ℝ)) +
      ((p1.x : ℝ) - (p3.x : ℝ)) * (py - (p3.y : ℝ))) / denom
    let c := 1 - a - b
    if 0 ≤ a ∧ 0 ≤ b ∧ 0 ≤ c then true else false

/-- The depth test of `rasterizeTriangle` (src lines 309–311): a stored
`Infinity` (`none`) always loses, a stored finite depth is beaten only
by a candidate more than `depthBias = 0.005` nearer. -/
def depthWins (depth : ℝ) : Option ℝ → Prop
  | none => True
  | some stored => depth < stored - 0.005

noncomputable instance (depth : ℝ) (stored : Option ℝ) : Decidable (depthWins depth stored) := by
  cases stored <;> simp only [depthWins] <;> infer_instance

/-- The flat lighting intensity of `drawTriangle` (src lines 270–280):
`min(1, max(0.25, pow(max(0, n·L), 1.2) * 0.7 + 0.35))`. -/
noncomputable def flatLightIntensity (normal lightDirection : Vector3) : ℝ :=
  min 1 (max 0.25 ((max 0 (normal.dot lightDirection)) ^ (1.2 : ℝ) * 0.7 + 0.35))

/-- The flat character index of `drawTriangle` (src line 282). -/
noncomputable def flatCharIndex (normal lightDirection : Vector3) : ℤ :=
  ⌊flatLightIntensity normal lightDirection * ((asciiChars.length : ℝ) - 1)⌋

/-- The per-pixel branch of `rasterizeTriangle` (src lines 315–328):
barycentric weights, interpolated re-normalized normal, same lighting
formula, same index mapping. -/
noncomputable def perPixelCharIndex (p1 p2 p3 : ScreenPoint) (x y : ℤ)
    (n1 n2 n3 lightDirection : Vector3) : ℤ :=
  let denom := rasterBarycentricDenom p1 p2 p3
  let a := (((p2.y : ℝ) - (p3.y : ℝ)) * ((x : ℝ) - (p3.x : ℝ)) +
    ((p3.x : ℝ) - (p2.x : ℝ)) * ((y : ℝ) - (p3.y : ℝ))) / denom
  let b := (((p3.y : ℝ) - (p1.y : ℝ)) * ((x : ℝ) - (p3.x : ℝ)) +
    ((p1.x : ℝ) - (p3.x : ℝ)) * ((y : ℝ) - (p3.y : ℝ))) / denom
  let c := 1 - a - b
  let nInterp := (Vector3.mk (n1.x * a + n2.x * b + n3.x * c)
    (n1.y * a + n2.y * b + n3.y * c) (n1.z * a + n2.z * b + n3.z * c)).normalize
  let dLight := max 0 (nInterp.dot lightDirection)
  let ambient := (0.35 : ℝ)
  let smooth := dLight ^ (1.2 : ℝ) * 0.7
  let intensity := min 1 (max 0.25 (ambient + smooth))
  ⌊intensity * ((asciiChars.length : ℝ) - 1)⌋

/-- The `effectiveIndex` selection (src lines 313–329): the per-pixel
recomputation fires only when the flag is set and both `vertexNormals`
and `lightDirection` were passed (non-`null`). -/
noncomputable def rasterEffectiveIndex (usePerPixelLighting : Bool)
    (p1 p2 p3 : ScreenPoint) (charIndex : ℤ)
    (vertexNormals : Option (Vector3 × Vector3 × Vector3))
    (lightDirection : Option Vector3) (x y : ℤ) : ℤ :=
  match vertexNormals, lightDirection with
  | some (n1, n2, n3), some L =>
    if usePerPixelLighting then perPixelCharIndex p1 p2 p3 x y n1 n2 n3 L else charIndex
  | _, _ => charIndex

/-- The buffer write of a winning covered cell (src lines 338–339). -/
def writeCell (st : TerminalRenderer) (y x : ℤ) (idx : ℤ) (d : ℝ) : TerminalRenderer :=
  { st with
    indexBuffer := fun y' x' => if y' = y ∧ x' = x then idx else st.indexBuffer y' x'
    depthBuffer := fun y' x' => if y' = y ∧ x' = x then some d else st.depthBuffer y' x' }

/-- One iteration of the inner rasterization loop (src lines 305–341):
containment test, depth test, effective index, temporal blend, write. -/
noncomputable def rasterCellStep (p1 p2 p3 : ScreenPoint) (charIndex : ℤ)
    (vertexNormals : Option (Vector3 × Vector3 × Vector3))
    (lightDirection : Option Vector3) (st : TerminalRenderer) (y x : ℤ) :
    TerminalRenderer :=
  if isPointInTriangle (x : ℝ) (y : ℝ) p1 p2 p3 then
    let depth := ((p1.z + p2.z + p3.z) / 3 : ℝ)
    if depthWins depth (st.depthBuffer y x) then
      writeCell st y x
        (blendIdx (st.prevIndexBuffer y x)
          (rasterEffectiveIndex st.usePerPixelLighting p1 p2 p3 charIndex
            vertexNormals lightDirection x y))
        depth
    else st
  else st

/-- The inclusive integer range `[a, b]` traversed by a `for` loop. -/
def intRange (a b : ℤ) : List ℤ :=
  (List.range (b + 1 - a).toNat).map (fun k => a + k)

/-- Translation of `rasterizeTriangle` (src lines 288–344): off-screen guard, clipped
bounding box, degenerate-box guard, then the double loop over cells. -/
noncomputable def TerminalRenderer.rasterizeTriangle (r : TerminalRenderer)
    (p1 p2 p3 : ScreenPoint) (charIndex : ℤ)
    (vertexNormals : Option (Vector3 × Vector3 × Vector3) := none)
    (lightDirection : Option Vector3 := none) : TerminalRenderer :=
  if p1.x < 0 ∨ p1.y < 0 ∨ p2.x < 0 ∨ p2.y < 0 ∨ p3.x < 0 ∨ p3.y < 0 then r
  else
    let minX := max 0 (min p1.x (min p2.x p3.x))
    let maxX := min ((r.width : ℤ) - 1) (max p1.x (max p2.x p3.x))
    let minY := max 0 (min p1.y (min p2.y p3.y))
    let maxY := min ((r.height : ℤ) - 1) (max p1.y (max p2.y p3.y))
    if minX ≥ maxX ∨ minY ≥ maxY then r
    else
      (intRange minY maxY).foldl
        (fun st y =>
          (intRange minX maxX).foldl
            (fun st' x =>
              rasterCellStep p1 p2 p3 charIndex vertexNormals lightDirection st' y x)
            st)
        r

/-- The transformed face normal of `drawTriangle` (src line 251). -/
noncomputable def transformedNormal (t : Triangle) (m : Mat3) : Vector3 :=
  applyMatrix t.normal m

/-- The view-space centroid `centerView` of `drawTriangle` (src 254–258). -/
noncomputable def viewCentroid (t : Triangle) (m : Mat3) : Vector3 :=
  let v1 := applyMatrix t.v1 m
  let v2 := applyMatrix t.v2 m
  let v3 := applyMatrix t.v3 m
  ⟨(v1.x + v2.x + v3.x) / 3, (v1.y + v2.y + v3.y) / 3, (v1.z + v2.z + v3.z) / 3⟩

/-- The normalized camera-to-centroid `viewVector` (src lines 259–260). -/
noncomputable def viewVec (t : Triangle) (m : Mat3) (cameraDistance : ℝ) : Vector3 :=
  ((Vector3.mk 0 0 (-cameraDistance)).subtract (viewCentroid t m)).normalize

/-- Translation of `drawTriangle` (src lines 241–286): transform, backface cull against
the view vector, project, flat lighting, then rasterize with per-vertex
normals and the light direction. -/
noncomputable def TerminalRenderer.drawTriangle (r : TerminalRenderer)
    (triangle : Triangle) (rotationMatrix : Mat3) (lightDirection : Vector3)
    (cameraDistance : ℝ) : TerminalRenderer :=
  let v1 := applyMatrix triangle.v1 rotationMatrix
  let v2 := applyMatrix triangle.v2 rotationMatrix
  let v3 := applyMatrix triangle.v3 rotationMatrix
  let n1 := applyMatrix (triangle.vn1.getD triangle.normal) rotationMatrix
  let n2 := applyMatrix (triangle.vn2.getD triangle.normal) rotationMatrix
  let n3 := applyMatrix (triangle.vn3.getD triangle.normal) rotationMatrix
  if (transformedNormal triangle rotationMatrix).dot
      (viewVec triangle rotationMatrix cameraDistance) ≤ 0 then r
  else
    let p1 := r.projectToScreen v1 cameraDistance
    let p2 := r.projectToScreen v2 cameraDistance
    let p3 := r.projectToScreen v3 cameraDistance
    r.rasterizeTriangle p1 p2 p3
      (flatCharIndex (transformedNormal triangle rotationMatrix) lightDirection)
      (some (n1, n2, n3)) (some lightDirection)

/-- Translation of `render` (src lines 372–389): serialize the index grid (a `none`
cell models the `undefined` a JS out-of-range string index would give,
an impossible case under the buffer invariant) and carry the whole
current index grid into `prevIndexBuffer` for the next frame. -/
def TerminalRenderer.render (r : TerminalRenderer) :
    TerminalRenderer × List (List (Option Char)) :=
  ({ r with
      prevIndexBuffer := fun y x =>
        if 0 ≤ y ∧ y < r.height ∧ 0 ≤ x ∧ x < r.width then r.indexBuffer y x
        else r.prevIndexBuffer y x },
   (intRange 0 ((r.height : ℤ) - 1)).map (fun y =>
     (intRange 0 ((r.width : ℤ) - 1)).map (fun x =>
       let idx := r.indexBuffer y x
       if 0 ≤ idx then asciiChars.toList.get? idx.toNat else some ' ')))

end StlToAscii

/-! ## Spec-side definitions (used to compare the code with the spec) -/

namespace StlToAscii

/-- Spec-side clamp: `clamp lo x hi` confines `x` to `[lo, hi]`. -/
noncomputable def clamp (lo x hi : ℝ) : ℝ := min hi (max lo x)

/-- The lighting formula as the spec words it:
`clamp(0.25, 0.35 + 0.7 * max(0, n·L)^1.2, 1.0)`. -/
noncomputable def brightnessSpec (n L : Vector3) : ℝ :=
  clamp 0.25 (0.35 + 0.7 * (max 0 (n.dot L)) ^ (1.2 : ℝ)) 1

/-- Spec-side standard rotation about the x-axis. -/
noncomputable def rotX (θ : ℝ) : Mat3 :=
  !![1, 0, 0; 0, Real.cos θ, -Real.sin θ; 0, Real.sin θ, Real.cos θ]

/-- Spec-side standard rotation about the y-axis. -/
noncomputable def rotY (θ : ℝ) : Mat3 :=
  !![Real.cos θ, 0, Real.sin θ; 0, 1, 0; -Real.sin θ, 0, Real.cos θ]

/-- Spec-side standard rotation about the z-axis. -/
noncomputable def rotZ (θ : ℝ) : Mat3 :=
  !![Real.cos θ, -Real.sin θ, 0; Real.sin θ, Real.cos θ, 0; 0, 0, 1]

/-- Linear dependence of two vectors (some nontrivial combination
vanishes); applied to two triangle edges it says exactly that the three
vertices are collinear or coincident. -/
def linDepPair (u v : Vector3) : Prop :=
  ∃ a b : ℝ, (a ≠ 0 ∨ b ≠ 0) ∧ (u.multiply a).add (v.multiply b) = ⟨0, 0, 0⟩

/-- A degenerate triangle in the claim's sense: collinear (including
coincident) vertices, i.e. linearly dependent edges. -/
def degenerateTriangle (v1 v2 v3 : Vector3) : Prop :=
  linDepPair (v2.subtract v1) (v3.subtract v1)

/-- The brightness-index invariant for one buffer entry: either the
empty sentinel `-1` or an index between 3 and 9. -/
def validIdx (i : ℤ) : Prop := i = -1 ∨ (3 ≤ i ∧ i ≤ 9)

/-- The frame-buffer invariant: every current and previous index entry
satisfies `validIdx`. -/
def bufInv (r : TerminalRenderer) : Prop :=
  (∀ y x, validIdx (r.indexBuffer y x)) ∧ (∀ y x, validIdx (r.prevIndexBuffer y x))

end StlToAscii

/-! ## Claim C2: binary/text detection rule -/

/-- C2: the loader takes the binary path exactly when the total length
exceeds 84 and equals `80 + 4 + 50*N` for `N` the unsigned 32-bit
little-endian integer at offset 80; in every other case `parseSTL`
parses the bytes as text. -/
theorem claim_C2 (data : List ℕ) :
    (STLParser.stlDetectsBinary data = true ↔
      84 < data.length ∧ data.length = 80 + 4 + 50 * readUInt32LE data 80)
    ∧ STLParser.parseSTL data =
        (if STLParser.stlDetectsBinary data then .ok (STLParser.parseBinarySTL data)
         else STLParser.parseAsciiSTL (bytesToChars data)) := by
  refine ⟨?_, rfl⟩
  unfold STLParser.stlDetectsBinary
  split_ifs with h
  · simp only [decide_eq_true_eq]
    omega
  · simp only [Bool.false_eq_true, false_iff, not_and]
    omega

/-! ## Claim C10: barycentric denominators and division safety -/

/-- C10: the barycentric denominator recomputed in the per-pixel branch
of `rasterizeTriangle` is the same expression checked by
`isPointInTriangle`, and containment forces `|denom| ≥ 0.001`, so the
divisions of the per-pixel branch never divide by zero. -/
theorem claim_C10 (p1 p2 p3 : StlToAscii.ScreenPoint) :
    StlToAscii.rasterBarycentricDenom p1 p2 p3 = StlToAscii.barycentricDenom p1 p2 p3
    ∧ ∀ px py : ℝ, StlToAscii.isPointInTriangle px py p1 p2 p3 = true →
        0.001 ≤ |StlToAscii.barycentricDenom p1 p2 p3|
        ∧ StlToAscii.barycentricDenom p1 p2 p3 ≠ 0 := by
  refine ⟨rfl, fun px py h => ?_⟩
  by_cases hd : |StlToAscii.barycentricDenom p1 p2 p3| < 0.001
  · exfalso
    simp only [StlToAscii.isPointInTriangle, if_pos hd] at h
    exact Bool.false_ne_true h
  · push_neg at hd
    refine ⟨hd, fun h0 => ?_⟩
    rw [h0] at hd
    norm_num at hd

/-- C10 witness: the containment hypothesis discharged at a concrete
covered cell. -/
theorem claim_C10_witness :
    0.001 ≤ |StlToAscii.barycentricDenom ⟨0, 0, 0⟩ ⟨3, 0, 0⟩ ⟨0, 3, 0⟩|
    ∧ StlToAscii.barycentricDenom ⟨0, 0, 0⟩ ⟨3, 0, 0⟩ ⟨0, 3, 0⟩ ≠ 0 :=
  (claim_C10 ⟨0, 0, 0⟩ ⟨3, 0, 0⟩ ⟨0, 3, 0⟩).2 0 0 (by
    have hd : StlToAscii.barycentricDenom ⟨0, 0, 0⟩ ⟨3, 0, 0⟩ ⟨0, 3, 0⟩ = 9 := by
      simp only [StlToAscii.barycentricDenom]
      push_cast
      norm_num
    simp only [StlToAscii.isPointInTriangle, hd]
    rw [if_neg (by norm_num), if_pos]
    push_cast
    norm_num)

/-! ## Claim C5: temporal-blend convergence -/

/-- C5 counterexample: with previous index 3 and constant computed index
9 the emitted index one frame after the first is 8, not 9, so the blend
has not converged after one frame of lag. -/
theorem claim_C5_counterexample : emitSeq 3 9 1 = 8 ∧ emitSeq 3 9 1 ≠ 9 := by
  constructor <;> norm_num [emitSeq, blendIdx, round_eq]

/-- One blend step at the fixed point: `blendIdx v v = v` whenever
`v ≠ -1`. -/
theorem blendIdx_fixed (v : ℤ) (hv : v ≠ -1) : blendIdx v v = v := by
  unfold blendIdx
  rw [if_pos hv]
  have : (v : ℚ) * 0.3 + (v : ℚ) * 0.7 = (v : ℚ) := by ring
  rw [this, round_intCast]

/-- C5 amended: for any in-range or empty previous value and constant
in-range computed index `v`, the emitted index reaches `v` within three
frames (by the frame of index 2) and stays there; a cell with no
previous value emits the computed value unmodified, and the blend is a
fixed point at `v`.  (Convergence after a single frame of lag fails:
see the counterexample.) -/
theorem claim_C5_amended (p v : ℤ) (hp : p = -1 ∨ (3 ≤ p ∧ p ≤ 9))
    (hv1 : 3 ≤ v) (hv2 : v ≤ 9) :
    (∀ n, 2 ≤ n → emitSeq p v n = v) ∧ blendIdx (-1) v = v ∧ blendIdx v v = v := by
  have hvne : v ≠ -1 := by omega
  have hbase : emitSeq p v 2 = v := by
    rcases hp with hp | ⟨hp1, hp2⟩
    · subst hp
      have h0 : blendIdx (-1) v = v := by simp [blendIdx]
      simp [emitSeq, h0, blendIdx_fixed v hvne]
    · interval_cases p <;> interval_cases v <;> norm_num [emitSeq, blendIdx, round_eq]
  refine ⟨?_, by simp [blendIdx], blendIdx_fixed v hvne⟩
  intro n hn
  induction n with
  | zero => omega
  | succ k ih =>
    rcases Nat.lt_or_ge 2 (k + 1) with hk | hk
    · have : emitSeq p v k = v := ih (by omega)
      simpa [emitSeq, this] using blendIdx_fixed v hvne
    · have : k + 1 = 2 := by omega
      rw [this]
      exact hbase

/-- C5 witness: the amended theorem applied at previous index 3 and
constant computed index 9, converged from frame 2 on. -/
theorem claim_C5_witness : emitSeq 3 9 2 = 9 ∧ blendIdx (-1) 9 = 9 :=
  ⟨(claim_C5_amended 3 9 (Or.inr (by norm_num)) (by norm_num) (by norm_num)).1 2
    (le_refl 2),
   (claim_C5_amended 3 9 (Or.inr (by norm_num)) (by norm_num) (by norm_num)).2.1⟩

/-! ## Claim C1: loader behaviour on empty, truncated and malformed input -/

/-- A scan that never sees a `facet normal` line returns the empty
triangle list, whatever the fuel and start index. -/
theorem parseAsciiGo_noFacet (lines : List (List Char))
    (hnf : ∀ l ∈ lines, listStartsWith ("facet normal".toList) l = false) :
    ∀ fuel i, STLParser.parseAsciiGo lines fuel i = .ok [] := by
  intro fuel
  induction fuel with
  | zero => intro i; rfl
  | succ k ih =>
    intro i
    unfold STLParser.parseAsciiGo
    by_cases h : i < lines.length
    · have hd : lines.getD i [] = lines[i] := by
        simp [List.getD_eq_getElem?_getD, List.getElem?_eq_getElem h]
      have hmem : lines[i] ∈ lines := lines.getElem_mem h
      rw [if_pos h]
      simp only [hd, hnf _ hmem, Bool.false_eq_true, if_false]
      exact ih (i + 1)
    · rw [if_neg h]

/-- C1 counterexample: a zero-length file does not produce a Load Error;
`parseSTL` falls through to the text parser and returns the empty
triangle list successfully. -/
theorem claim_C1_counterexample : STLParser.parseSTL [] = .ok [] := rfl

/-- C1 amended: (1) a zero-length file parses as text and yields `ok []`
with no error; (2) a truncated binary file (length over 84 but not on
the record boundary) is parsed as text, and whenever its decoded lines
contain no `facet normal` line — the typical case for binary data — it
also yields `ok []` with no error; (3) a text file missing its last
vertex line does raise a (Load) error when the vertex read runs past the
final line; (4) a malformed token where a number is expected does not
raise an error: the file parses successfully into a triangle carrying a
NaN (`none`) component. -/
theorem claim_C1_amended :
    (∀ data : List ℕ, data.length = 0 → STLParser.parseSTL data = .ok [])
    ∧ (∀ data : List ℕ, 84 < data.length →
        data.length ≠ 80 + 4 + 50 * readUInt32LE data 80 →
        (∀ l ∈ (splitOnChar '\n' (bytesToChars data)).map trimChars,
          listStartsWith ("facet normal".toList) l = false) →
        STLParser.parseSTL data = .ok [])
    ∧ STLParser.parseAsciiSTL
        ("facet normal 0 0 1\nouter loop\nvertex 0 0 0\nvertex 1 0 0").toList
        = .error "TypeError"
    ∧ STLParser.parseAsciiSTL
        ("facet normal 0 0 1\nouter loop\nvertex a 0 0\nvertex 0 0 0\nvertex 0 0 0\nendloop\nendfacet").toList
        = .ok [⟨⟨none, some 0, some 0⟩, ⟨some 0, some 0, some 0⟩,
            ⟨some 0, some 0, some 0⟩, ⟨some 0, some 0, some 1⟩⟩] := by
  refine ⟨?_, ?_, rfl, by with_unfolding_all rfl⟩
  · intro data hlen
    have : data = [] := List.eq_nil_of_length_eq_zero hlen
    subst this
    rfl
  · intro data hlen hneq hnf
    have hdet : STLParser.stlDetectsBinary data = false := by
      have hne : ¬(data.length = 80 + 4 + readUInt32LE data 80 * 50) := by omega
      simp [STLParser.stlDetectsBinary, hlen, hne]
    simp only [STLParser.parseSTL, hdet, Bool.false_eq_true, if_false]
    exact parseAsciiGo_noFacet _ hnf _ _

/-- C1 witness: the amended theorem applied to the empty file and to a
concrete 85-byte truncated binary file. -/
theorem claim_C1_witness :
    STLParser.parseSTL [] = .ok [] ∧
    STLParser.parseSTL (List.replicate 85 0) = .ok [] :=
  ⟨claim_C1_amended.1 [] rfl,
   claim_C1_amended.2.1 (List.replicate 85 0) (by decide) (by decide) (by decide)⟩

/-! ## Claim C8: rotation-matrix composition -/

/-- C8: `createRotationMatrix` equals the product Rx · Ry · Rz of the
standard axis rotations (Z applied first, then Y, then X), each taken at
its input angle reduced by the JS `%` operator against a full turn. -/
theorem claim_C8 (angleX angleY angleZ : ℝ) :
    StlToAscii.createRotationMatrix angleX angleY angleZ =
      StlToAscii.rotX (StlToAscii.jsRem angleX (2 * Real.pi)) *
        StlToAscii.rotY (StlToAscii.jsRem angleY (2 * Real.pi)) *
        StlToAscii.rotZ (StlToAscii.jsRem angleZ (2 * Real.pi)) := by
  ext i j
  fin_cases i <;> fin_cases j <;>
    simp [StlToAscii.createRotationMatrix, StlToAscii.rotX, StlToAscii.rotY,
      StlToAscii.rotZ, Matrix.mul_apply, Fin.sum_univ_three]

/-! ## Claim C3: flat lighting formula and character-index mapping -/

/-- C3: for any triangle normal and unit light direction the flat
per-triangle brightness of `drawTriangle` equals the spec's
`clamp(0.25, 0.35 + 0.7 * max(0, n·L)^1.2, 1.0)`, the character index
equals the truncation of brightness times the ramp's maximum index 9,
and in flat mode (per-pixel lighting off) `rasterizeTriangle` writes
exactly that index for a covered cell (before temporal blending). -/
theorem claim_C3 (n L : StlToAscii.Vector3) (_hL : L.length = 1) :
    StlToAscii.flatLightIntensity n L = StlToAscii.brightnessSpec n L
    ∧ StlToAscii.flatCharIndex n L = ⌊StlToAscii.brightnessSpec n L * 9⌋
    ∧ ∀ (p1 p2 p3 : StlToAscii.ScreenPoint) vns ld (x y : ℤ),
        StlToAscii.rasterEffectiveIndex false p1 p2 p3
          (StlToAscii.flatCharIndex n L) vns ld x y = StlToAscii.flatCharIndex n L := by
  have h10 : StlToAscii.asciiChars.length = 10 := rfl
  have hlen : ((StlToAscii.asciiChars.length : ℝ) - 1) = 9 := by
    rw [h10]; norm_num
  have hb : StlToAscii.flatLightIntensity n L = StlToAscii.brightnessSpec n L := by
    unfold StlToAscii.flatLightIntensity StlToAscii.brightnessSpec StlToAscii.clamp
    ring_nf
  refine ⟨hb, ?_, ?_⟩
  · unfold StlToAscii.flatCharIndex
    rw [hb, hlen]
  · intro p1 p2 p3 vns ld x y
    unfold StlToAscii.rasterEffectiveIndex
    rcases vns with _ | ⟨⟨n1, n2, n3⟩⟩ <;> rcases ld with _ | L' <;> simp

/-- C3 witness: the unit-light hypothesis discharged at the concrete
light direction (0, 0, 1). -/
theorem claim_C3_witness :
    StlToAscii.flatLightIntensity ⟨0, 0, 1⟩ ⟨0, 0, 1⟩ =
      StlToAscii.brightnessSpec ⟨0, 0, 1⟩ ⟨0, 0, 1⟩ :=
  (claim_C3 ⟨0, 0, 1⟩ ⟨0, 0, 1⟩ (by simp [StlToAscii.Vector3.length])).1

/-! ## Claim C6: backface culling leaves the state unchanged -/

/-- C6: a triangle whose transformed face normal has non-positive dot
product with the normalized camera-to-centroid view vector is culled by
`drawTriangle` before any buffer write: index, depth and previous-index
buffers are all left unchanged. -/
theorem claim_C6 (r : StlToAscii.TerminalRenderer) (t : StlToAscii.Triangle)
    (m : StlToAscii.Mat3) (L : StlToAscii.Vector3) (cam : ℝ)
    (h : (StlToAscii.transformedNormal t m).dot (StlToAscii.viewVec t m cam) ≤ 0) :
    (r.drawTriangle t m L cam).indexBuffer = r.indexBuffer
    ∧ (r.drawTriangle t m L cam).depthBuffer = r.depthBuffer
    ∧ (r.drawTriangle t m L cam).prevIndexBuffer = r.prevIndexBuffer := by
  have hdraw : r.drawTriangle t m L cam = r := by
    unfold StlToAscii.TerminalRenderer.drawTriangle
    rw [if_pos h]
  rw [hdraw]
  exact ⟨rfl, rfl, rfl⟩

/-- C6 witness: the cull hypothesis discharged for a triangle with the
zero face normal (its dot product with any view vector is 0). -/
theorem claim_C6_witness :
    (StlToAscii.TerminalRenderer.drawTriangle
      ⟨2, 2, true, fun _ _ => ' ', fun _ _ => -1, fun _ _ => -1, fun _ _ => none⟩
      ⟨⟨0, 0, 0⟩, ⟨1, 0, 0⟩, ⟨0, 1, 0⟩, ⟨0, 0, 0⟩, none, none, none⟩
      1 ⟨0, 0, 1⟩ 5).indexBuffer = (fun _ _ => (-1 : ℤ)) :=
  (claim_C6 ⟨2, 2, true, fun _ _ => ' ', fun _ _ => -1, fun _ _ => -1, fun _ _ => none⟩
    ⟨⟨0, 0, 0⟩, ⟨1, 0, 0⟩, ⟨0, 1, 0⟩, ⟨0, 0, 0⟩, none, none, none⟩
    1 ⟨0, 0, 1⟩ 5 (by
      simp [StlToAscii.transformedNormal, StlToAscii.applyMatrix,
        StlToAscii.Vector3.dot])).1

/-! ## Claim C7: computed face normals are unit or zero -/

namespace StlToAscii

/-- Componentwise characterization of the zero vector. -/
theorem vec_eq_zero_iff (v : Vector3) :
    v = ⟨0, 0, 0⟩ ↔ v.x = 0 ∧ v.y = 0 ∧ v.z = 0 := by
  cases v
  simp [Vector3.mk.injEq]

/-- Linearly dependent edge vectors have zero cross product. -/
theorem cross_eq_zero_of_linDep (u v : Vector3) (h : linDepPair u v) :
    u.cross v = ⟨0, 0, 0⟩ := by
  obtain ⟨a, b, hab, heq⟩ := h
  rw [vec_eq_zero_iff] at heq ⊢
  simp only [Vector3.multiply, Vector3.add] at heq
  obtain ⟨hx, hy, hz⟩ := heq
  simp only [Vector3.cross]
  rcases hab with ha | hb
  · refine ⟨?_, ?_, ?_⟩
    · have h1 : a * (u.y * v.z - u.z * v.y) = 0 := by linear_combination v.z * hy - v.y * hz
      exact (mul_eq_zero.mp h1).resolve_left ha
    · have h1 : a * (u.z * v.x - u.x * v.z) = 0 := by linear_combination v.x * hz - v.z * hx
      exact (mul_eq_zero.mp h1).resolve_left ha
    · have h1 : a * (u.x * v.y - u.y * v.x) = 0 := by linear_combination v.y * hx - v.x * hy
      exact (mul_eq_zero.mp h1).resolve_left ha
  · refine ⟨?_, ?_, ?_⟩
    · have h1 : b * (u.y * v.z - u.z * v.y) = 0 := by linear_combination u.y * hz - u.z * hy
      exact (mul_eq_zero.mp h1).resolve_left hb
    · have h1 : b * (u.z * v.x - u.x * v.z) = 0 := by linear_combination u.z * hx - u.x * hz
      exact (mul_eq_zero.mp h1).resolve_left hb
    · have h1 : b * (u.x * v.y - u.y * v.x) = 0 := by linear_combination u.x * hy - u.y * hx
      exact (mul_eq_zero.mp h1).resolve_left hb

/-- A zero cross product forces the two vectors to be linearly
dependent. -/
theorem linDep_of_cross_eq_zero (u v : Vector3) (h : u.cross v = ⟨0, 0, 0⟩) :
    linDepPair u v := by
  rw [vec_eq_zero_iff] at h
  simp only [Vector3.cross] at h
  obtain ⟨h1, h2, h3⟩ := h
  by_cases hx : u.x = 0
  · by_cases hy : u.y = 0
    · by_cases hz : u.z = 0
      · exact ⟨1, 0, Or.inl one_ne_zero, by
          rw [vec_eq_zero_iff]
          simp [Vector3.multiply, Vector3.add, hx, hy, hz]⟩
      · refine ⟨v.z, -u.z, Or.inr (neg_ne_zero.mpr hz), ?_⟩
        rw [vec_eq_zero_iff]
        simp only [Vector3.multiply, Vector3.add]
        refine ⟨by linear_combination -h2, by linear_combination h1, by ring⟩
    · refine ⟨v.y, -u.y, Or.inr (neg_ne_zero.mpr hy), ?_⟩
      rw [vec_eq_zero_iff]
      simp only [Vector3.multiply, Vector3.add]
      refine ⟨by linear_combination h3, by ring, by linear_combination -h1⟩
  · refine ⟨v.x, -u.x, Or.inr (neg_ne_zero.mpr hx), ?_⟩
    rw [vec_eq_zero_iff]
    simp only [Vector3.multiply, Vector3.add]
    refine ⟨by ring, by linear_combination -h3, by linear_combination h2⟩

/-- A vector with a nonzero component has positive squared length. -/
theorem normSq_pos_of_ne_zero (v : Vector3) (h : ¬(v.x = 0 ∧ v.y = 0 ∧ v.z = 0)) :
    0 < v.x * v.x + v.y * v.y + v.z * v.z := by
  by_contra hS
  push_neg at hS
  have hxx : v.x * v.x = 0 := le_antisymm
    (by nlinarith [mul_self_nonneg v.y, mul_self_nonneg v.z]) (mul_self_nonneg v.x)
  have hyy : v.y * v.y = 0 := le_antisymm
    (by nlinarith [mul_self_nonneg v.x, mul_self_nonneg v.z]) (mul_self_nonneg v.y)
  have hzz : v.z * v.z = 0 := le_antisymm
    (by nlinarith [mul_self_nonneg v.x, mul_self_nonneg v.y]) (mul_self_nonneg v.z)
  exact h ⟨mul_self_eq_zero.mp hxx, mul_self_eq_zero.mp hyy, mul_self_eq_zero.mp hzz⟩

/-- Applying `normalize` to a nonzero vector gives unit length. -/
theorem normalize_length_one (v : Vector3) (h : ¬(v.x = 0 ∧ v.y = 0 ∧ v.z = 0)) :
    v.normalize.length = 1 := by
  have hS : 0 < v.x * v.x + v.y * v.y + v.z * v.z := normSq_pos_of_ne_zero v h
  have hl : 0 < Real.sqrt (v.x * v.x + v.y * v.y + v.z * v.z) := Real.sqrt_pos.mpr hS
  have hll : Real.sqrt (v.x * v.x + v.y * v.y + v.z * v.z) *
      Real.sqrt (v.x * v.x + v.y * v.y + v.z * v.z) =
      v.x * v.x + v.y * v.y + v.z * v.z := Real.mul_self_sqrt hS.le
  unfold Vector3.normalize
  rw [if_neg (ne_of_gt hl)]
  unfold Vector3.length
  simp only
  rw [show ∀ l : ℝ, v.x / l * (v.x / l) + v.y / l * (v.y / l) + v.z / l * (v.z / l) =
      (v.x * v.x + v.y * v.y + v.z * v.z) / (l * l) from fun l => by ring]
  rw [hll, div_self (ne_of_gt hS), Real.sqrt_one]

/-- Applying `normalize` to the zero vector gives the zero vector. -/
theorem normalize_zero : (⟨0, 0, 0⟩ : Vector3).normalize = ⟨0, 0, 0⟩ := by
  unfold Vector3.normalize
  norm_num

end StlToAscii

/-- C7: a computed face normal (`calculateNormal`) has unit length
unless the triangle is degenerate — collinear or coincident vertices,
i.e. linearly dependent edges — in which case it is the zero vector; and
a triangle whose transformed face normal is the zero vector is always
classified back-facing (its dot product with the view vector is 0 ≤ 0)
and `drawTriangle` leaves the renderer unchanged. -/
theorem claim_C7 :
    (∀ v1 v2 v3 : StlToAscii.Vector3,
      (¬ StlToAscii.degenerateTriangle v1 v2 v3 →
        (StlToAscii.calculateNormal v1 v2 v3).length = 1)
      ∧ (StlToAscii.degenerateTriangle v1 v2 v3 →
        StlToAscii.calculateNormal v1 v2 v3 = ⟨0, 0, 0⟩))
    ∧ (∀ (r : StlToAscii.TerminalRenderer) (t : StlToAscii.Triangle)
        (m : StlToAscii.Mat3) (L : StlToAscii.Vector3) (cam : ℝ),
        StlToAscii.transformedNormal t m = ⟨0, 0, 0⟩ →
        (StlToAscii.transformedNormal t m).dot (StlToAscii.viewVec t m cam) ≤ 0
        ∧ r.drawTriangle t m L cam = r) := by
  constructor
  · intro v1 v2 v3
    constructor
    · intro hdeg
      apply StlToAscii.normalize_length_one
      intro hcz
      exact hdeg (StlToAscii.linDep_of_cross_eq_zero _ _
        ((StlToAscii.vec_eq_zero_iff _).mpr hcz))
    · intro hdeg
      unfold StlToAscii.calculateNormal
      rw [StlToAscii.cross_eq_zero_of_linDep _ _ hdeg]
      exact StlToAscii.normalize_zero
  · intro r t m L cam h
    have hdot : (StlToAscii.transformedNormal t m).dot
        (StlToAscii.viewVec t m cam) ≤ 0 := by
      rw [h]
      simp [StlToAscii.Vector3.dot]
    refine ⟨hdot, ?_⟩
    unfold StlToAscii.TerminalRenderer.drawTriangle
    rw [if_pos hdot]

/-- C7 witness: the degenerate triangle with three coincident vertices
has the zero computed normal, and a triangle with zero transformed
normal is skipped by `drawTriangle`. -/
theorem claim_C7_witness :
    StlToAscii.calculateNormal ⟨0, 0, 0⟩ ⟨0, 0, 0⟩ ⟨0, 0, 0⟩ = ⟨0, 0, 0⟩
    ∧ StlToAscii.TerminalRenderer.drawTriangle
        ⟨3, 3, false, fun _ _ => ' ', fun _ _ => -1, fun _ _ => -1, fun _ _ => none⟩
        ⟨⟨0, 0, 0⟩, ⟨2, 0, 0⟩, ⟨0, 2, 0⟩, ⟨0, 0, 0⟩, none, none, none⟩ 1 ⟨1, 0, 0⟩ 5 =
      ⟨3, 3, false, fun _ _ => ' ', fun _ _ => -1, fun _ _ => -1, fun _ _ => none⟩ :=
  ⟨(claim_C7.1 ⟨0, 0, 0⟩ ⟨0, 0, 0⟩ ⟨0, 0, 0⟩).2
    ⟨1, 0, Or.inl one_ne_zero, by
      simp [StlToAscii.Vector3.subtract, StlToAscii.Vector3.multiply,
        StlToAscii.Vector3.add]⟩,
   ((claim_C7.2 _ ⟨⟨0, 0, 0⟩, ⟨2, 0, 0⟩, ⟨0, 2, 0⟩, ⟨0, 0, 0⟩, none, none, none⟩
      1 ⟨1, 0, 0⟩ 5 (by
        simp [StlToAscii.transformedNormal, StlToAscii.applyMatrix])).2)⟩

/-! ## Claim C4: depth-test discipline of the rasterizer -/

/-- A fold preserves any invariant its step preserves. -/
theorem foldl_preserve {α σ : Type _} (P : σ → Prop) (f : σ → α → σ)
    (hstep : ∀ s a, P s → P (f s a)) :
    ∀ (l : List α) (s : σ), P s → P (l.foldl f s) := by
  intro l
  induction l with
  | nil => intro s hs; exact hs
  | cons a t ih => intro s hs; exact ih _ (hstep s a hs)

namespace StlToAscii

/-- One rasterization cell step never touches the entries of a cell at
which the candidate depth loses the depth test against the original
stored depth. -/
theorem rasterCellStep_frozen (p1 p2 p3 : ScreenPoint) (ci : ℤ)
    (vns : Option (Vector3 × Vector3 × Vector3)) (ld : Option Vector3)
    (r : TerminalRenderer) (y x : ℤ)
    (hw : ¬ depthWins ((p1.z + p2.z + p3.z) / 3) (r.depthBuffer y x))
    (st : TerminalRenderer) (y0 x0 : ℤ)
    (hP : st.indexBuffer y x = r.indexBuffer y x ∧
      st.depthBuffer y x = r.depthBuffer y x) :
    (rasterCellStep p1 p2 p3 ci vns ld st y0 x0).indexBuffer y x = r.indexBuffer y x ∧
    (rasterCellStep p1 p2 p3 ci vns ld st y0 x0).depthBuffer y x = r.depthBuffer y x := by
  obtain ⟨hi, hd⟩ := hP
  unfold rasterCellStep
  by_cases hin : isPointInTriangle (x0 : ℝ) (y0 : ℝ) p1 p2 p3 = true
  · rw [if_pos hin]
    by_cases hdw : depthWins ((p1.z + p2.z + p3.z) / 3) (st.depthBuffer y0 x0)
    · rw [if_pos hdw]
      by_cases hc : y = y0 ∧ x = x0
      · obtain ⟨hy, hx⟩ := hc
        subst hy; subst hx
        rw [hd] at hdw
        exact absurd hdw hw
      · constructor <;> simp only [writeCell] <;> rw [if_neg hc] <;> assumption
    · rw [if_neg hdw]
      exact ⟨hi, hd⟩
  · rw [if_neg hin]
    exact ⟨hi, hd⟩

end StlToAscii

/-- C4: during `rasterizeTriangle` a cell's index and depth entries are
overwritten only when the flat candidate depth (mean of the three
projected depths) strictly beats the stored depth minus the bias; in
particular a cell whose stored depth exactly equals the candidate depth
is left unchanged, so ties keep the first writer. -/
theorem claim_C4 (r : StlToAscii.TerminalRenderer)
    (p1 p2 p3 : StlToAscii.ScreenPoint) (ci : ℤ)
    (vns : Option (StlToAscii.Vector3 × StlToAscii.Vector3 × StlToAscii.Vector3))
    (ld : Option StlToAscii.Vector3) (y x : ℤ) :
    (¬ StlToAscii.depthWins ((p1.z + p2.z + p3.z) / 3) (r.depthBuffer y x) →
      (r.rasterizeTriangle p1 p2 p3 ci vns ld).indexBuffer y x = r.indexBuffer y x
      ∧ (r.rasterizeTriangle p1 p2 p3 ci vns ld).depthBuffer y x = r.depthBuffer y x)
    ∧ (r.depthBuffer y x = some ((p1.z + p2.z + p3.z) / 3) →
      (r.rasterizeTriangle p1 p2 p3 ci vns ld).indexBuffer y x = r.indexBuffer y x
      ∧ (r.rasterizeTriangle p1 p2 p3 ci vns ld).depthBuffer y x = r.depthBuffer y x) := by
  have main : ¬ StlToAscii.depthWins ((p1.z + p2.z + p3.z) / 3) (r.depthBuffer y x) →
      (r.rasterizeTriangle p1 p2 p3 ci vns ld).indexBuffer y x = r.indexBuffer y x
      ∧ (r.rasterizeTriangle p1 p2 p3 ci vns ld).depthBuffer y x = r.depthBuffer y x := by
    intro hw
    unfold StlToAscii.TerminalRenderer.rasterizeTriangle
    dsimp only
    split_ifs with h1 h2
    · exact ⟨rfl, rfl⟩
    · exact ⟨rfl, rfl⟩
    · exact foldl_preserve
        (fun st => st.indexBuffer y x = r.indexBuffer y x ∧
          st.depthBuffer y x = r.depthBuffer y x)
        _
        (fun s a hs => foldl_preserve _ _
          (fun s' a' hs' =>
            StlToAscii.rasterCellStep_frozen p1 p2 p3 ci vns ld r y x hw s' a a' hs')
          _ s hs)
        _ _ ⟨rfl, rfl⟩
  refine ⟨main, fun heq => main ?_⟩
  rw [heq]
  simp only [StlToAscii.depthWins]
  linarith

/-- C4 witness: both hypotheses discharged at a stored depth equal to
the candidate depth (an exact tie is not overwritten). -/
theorem claim_C4_witness :
    (StlToAscii.TerminalRenderer.rasterizeTriangle
      ⟨2, 2, false, fun _ _ => ' ', fun _ _ => -1, fun _ _ => -1, fun _ _ => some 0⟩
      ⟨0, 0, 0⟩ ⟨3, 0, 0⟩ ⟨0, 3, 0⟩ 5 none none).indexBuffer 0 0 = -1
    ∧ (StlToAscii.TerminalRenderer.rasterizeTriangle
      ⟨2, 2, false, fun _ _ => ' ', fun _ _ => -1, fun _ _ => -1, fun _ _ => some 0⟩
      ⟨0, 0, 0⟩ ⟨3, 0, 0⟩ ⟨0, 3, 0⟩ 5 none none).depthBuffer 0 0 = some 0 :=
  (claim_C4
    ⟨2, 2, false, fun _ _ => ' ', fun _ _ => -1, fun _ _ => -1, fun _ _ => some 0⟩
    ⟨0, 0, 0⟩ ⟨3, 0, 0⟩ ⟨0, 3, 0⟩ 5 none none 0 0).2 (by norm_num)

/-! ## Claim C9: the brightness-index buffer invariant -/

namespace StlToAscii

/-- The clamped intensity-to-index mapping lands in `[3, 9]` whenever
the unclamped intensity is at least the ambient term 0.35. -/
theorem charIndexRange (v : ℝ) (hv : 0.35 ≤ v) :
    3 ≤ ⌊min 1 (max 0.25 v) * ((asciiChars.length : ℝ) - 1)⌋ ∧
      ⌊min 1 (max 0.25 v) * ((asciiChars.length : ℝ) - 1)⌋ ≤ 9 := by
  have h10 : asciiChars.length = 10 := rfl
  have hlen : ((asciiChars.length : ℝ) - 1) = 9 := by rw [h10]; norm_num
  rw [hlen]
  have hI1 : min 1 (max 0.25 v) ≤ 1 := min_le_left _ _
  have hI2 : (0.35 : ℝ) ≤ min 1 (max 0.25 v) :=
    le_min (by norm_num) (le_trans hv (le_max_right _ _))
  constructor
  · apply Int.le_floor.mpr
    push_cast
    nlinarith
  · calc ⌊min 1 (max 0.25 v) * 9⌋ ≤ ⌊(9 : ℝ)⌋ := Int.floor_mono (by nlinarith)
    _ = 9 := by norm_num

/-- The directional term never pushes the intensity under the ambient
floor (flat-lighting operand order). -/
theorem flatAmbientLB (d : ℝ) : (0.35 : ℝ) ≤ (max 0 d) ^ (1.2 : ℝ) * 0.7 + 0.35 := by
  nlinarith [Real.rpow_nonneg (le_max_left (0 : ℝ) d) (1.2 : ℝ)]

/-- The directional term never pushes the intensity under the ambient
floor (per-pixel operand order). -/
theorem perPixelAmbientLB (d : ℝ) : (0.35 : ℝ) ≤ 0.35 + (max 0 d) ^ (1.2 : ℝ) * 0.7 := by
  nlinarith [Real.rpow_nonneg (le_max_left (0 : ℝ) d) (1.2 : ℝ)]

/-- The flat character index is always between 3 and 9. -/
theorem flatCharIndex_range (n L : Vector3) :
    3 ≤ flatCharIndex n L ∧ flatCharIndex n L ≤ 9 := by
  unfold flatCharIndex flatLightIntensity
  exact charIndexRange _ (flatAmbientLB _)

/-- The per-pixel character index is always between 3 and 9. -/
theorem perPixelCharIndex_range (p1 p2 p3 : ScreenPoint) (x y : ℤ)
    (n1 n2 n3 L : Vector3) :
    3 ≤ perPixelCharIndex p1 p2 p3 x y n1 n2 n3 L ∧
      perPixelCharIndex p1 p2 p3 x y n1 n2 n3 L ≤ 9 := by
  unfold perPixelCharIndex
  exact charIndexRange _ (perPixelAmbientLB _)

/-- The effective index selected by the rasterizer is between 3 and 9
whenever the flat index passed in is. -/
theorem rasterEffectiveIndex_range (pp : Bool) (p1 p2 p3 : ScreenPoint) (ci : ℤ)
    (vns : Option (Vector3 × Vector3 × Vector3)) (ld : Option Vector3) (x y : ℤ)
    (h3 : 3 ≤ ci) (h9 : ci ≤ 9) :
    3 ≤ rasterEffectiveIndex pp p1 p2 p3 ci vns ld x y ∧
      rasterEffectiveIndex pp p1 p2 p3 ci vns ld x y ≤ 9 := by
  unfold rasterEffectiveIndex
  rcases vns with _ | ⟨⟨n1, n2, n3⟩⟩
  · exact ⟨h3, h9⟩
  · rcases ld with _ | L
    · exact ⟨h3, h9⟩
    · dsimp only
      cases pp
      · simpa using ⟨h3, h9⟩
      · simpa using perPixelCharIndex_range p1 p2 p3 x y n1 n2 n3 L

/-- The temporal blend of a valid previous entry with a computed index
in `[3, 9]` stays in `[3, 9]`. -/
theorem blendIdx_range (p e : ℤ) (hp : validIdx p) (he3 : 3 ≤ e) (he9 : e ≤ 9) :
    3 ≤ blendIdx p e ∧ blendIdx p e ≤ 9 := by
  unfold blendIdx
  rcases hp with hp | ⟨hp3, hp9⟩
  · subst hp
    rw [if_neg (by simp : ¬((-1 : ℤ) ≠ -1))]
    exact ⟨he3, he9⟩
  · rw [if_pos (by omega : p ≠ -1), round_eq]
    have h1 : (3 : ℚ) ≤ (p : ℚ) := by exact_mod_cast hp3
    have h2 : (3 : ℚ) ≤ (e : ℚ) := by exact_mod_cast he3
    have h3 : (p : ℚ) ≤ 9 := by exact_mod_cast hp9
    have h4 : (e : ℚ) ≤ 9 := by exact_mod_cast he9
    constructor
    · apply Int.le_floor.mpr
      push_cast
      nlinarith
    · have hlt : ⌊(p : ℚ) * 0.3 + (e : ℚ) * 0.7 + 1 / 2⌋ < 10 := by
        apply Int.floor_lt.mpr
        push_cast
        nlinarith
      omega

/-- One cell step preserves index validity and the previous buffer. -/
theorem rasterCellStep_inv (p1 p2 p3 : ScreenPoint) (ci : ℤ)
    (vns : Option (Vector3 × Vector3 × Vector3)) (ld : Option Vector3)
    (r : TerminalRenderer) (hprev : ∀ y x, validIdx (r.prevIndexBuffer y x))
    (h3 : 3 ≤ ci) (h9 : ci ≤ 9) (st : TerminalRenderer) (y0 x0 : ℤ)
    (hP : (∀ y x, validIdx (st.indexBuffer y x)) ∧
      st.prevIndexBuffer = r.prevIndexBuffer) :
    (∀ y x, validIdx ((rasterCellStep p1 p2 p3 ci vns ld st y0 x0).indexBuffer y x)) ∧
      (rasterCellStep p1 p2 p3 ci vns ld st y0 x0).prevIndexBuffer =
        r.prevIndexBuffer := by
  obtain ⟨hi, hp⟩ := hP
  unfold rasterCellStep
  by_cases hin : isPointInTriangle (x0 : ℝ) (y0 : ℝ) p1 p2 p3 = true
  · rw [if_pos hin]
    by_cases hdw : depthWins ((p1.z + p2.z + p3.z) / 3) (st.depthBuffer y0 x0)
    · rw [if_pos hdw]
      refine ⟨?_, hp⟩
      intro y x
      simp only [writeCell]
      by_cases hc : y = y0 ∧ x = x0
      · rw [if_pos hc]
        right
        refine blendIdx_range _ _ ?_
          (rasterEffectiveIndex_range st.usePerPixelLighting p1 p2 p3 ci vns ld x0 y0 h3 h9).1
          (rasterEffectiveIndex_range st.usePerPixelLighting p1 p2 p3 ci vns ld x0 y0 h3 h9).2
        rw [hp]
        exact hprev y0 x0
      · rw [if_neg hc]
        exact hi y x
    · rw [if_neg hdw]
      exact ⟨hi, hp⟩
  · rw [if_neg hin]
    exact ⟨hi, hp⟩

/-- The double rasterization loop preserves index validity and the
previous buffer. -/
theorem rasterFold_inv (p1 p2 p3 : ScreenPoint) (ci : ℤ)
    (vns : Option (Vector3 × Vector3 × Vector3)) (ld : Option Vector3)
    (r : TerminalRenderer) (hprev : ∀ y x, validIdx (r.prevIndexBuffer y x))
    (h3 : 3 ≤ ci) (h9 : ci ≤ 9) (ys xs : List ℤ) (s : TerminalRenderer)
    (hs : (∀ y x, validIdx (s.indexBuffer y x)) ∧
      s.prevIndexBuffer = r.prevIndexBuffer) :
    (∀ y x, validIdx ((ys.foldl (fun st y => xs.foldl
        (fun st' x => rasterCellStep p1 p2 p3 ci vns ld st' y x) st) s).indexBuffer y x)) ∧
      (ys.foldl (fun st y => xs.foldl
        (fun st' x => rasterCellStep p1 p2 p3 ci vns ld st' y x) st) s).prevIndexBuffer =
        r.prevIndexBuffer :=
  foldl_preserve _ _
    (fun s' a hs' => foldl_preserve _ _
      (fun s'' a' hs'' =>
        rasterCellStep_inv p1 p2 p3 ci vns ld r hprev h3 h9 s'' a a' hs'')
      xs s' hs')
    ys s hs

/-- The function `rasterizeTriangle` preserves the buffer invariant for any flat
index in `[3, 9]`. -/
theorem rasterize_bufInv (r : TerminalRenderer) (hr : bufInv r)
    (p1 p2 p3 : ScreenPoint) (ci : ℤ)
    (vns : Option (Vector3 × Vector3 × Vector3)) (ld : Option Vector3)
    (h3 : 3 ≤ ci) (h9 : ci ≤ 9) :
    bufInv (r.rasterizeTriangle p1 p2 p3 ci vns ld) := by
  obtain ⟨hri, hrp⟩ := hr
  unfold TerminalRenderer.rasterizeTriangle
  dsimp only
  split_ifs with h1 h2
  · exact ⟨hri, hrp⟩
  · exact ⟨hri, hrp⟩
  · refine ⟨(rasterFold_inv p1 p2 p3 ci vns ld r hrp h3 h9 _ _ r ⟨hri, rfl⟩).1,
      fun y x => ?_⟩
    rw [(rasterFold_inv p1 p2 p3 ci vns ld r hrp h3 h9 _ _ r ⟨hri, rfl⟩).2]
    exact hrp y x

/-- The function `drawTriangle` preserves the buffer invariant. -/
theorem drawTriangle_bufInv (r : TerminalRenderer) (hr : bufInv r)
    (t : Triangle) (m : Mat3) (L : Vector3) (cam : ℝ) :
    bufInv (r.drawTriangle t m L cam) := by
  unfold TerminalRenderer.drawTriangle
  dsimp only
  split_ifs with h
  · exact hr
  · exact rasterize_bufInv r hr _ _ _ _ _ _
      (flatCharIndex_range _ _).1 (flatCharIndex_range _ _).2

end StlToAscii

/-- C9: if every entry of the current and previous index grids is either
the empty sentinel `-1` or an index in `[3, 9]`, then the invariant is
preserved by `clear`, by `drawTriangle` (and by `rasterizeTriangle` for
any flat index in `[3, 9]`, the only indices `drawTriangle` produces),
and by `render`; consequently a non-sentinel entry always indexes the
10-character ramp in bounds and is never one of the three sparsest
glyphs. -/
theorem claim_C9 (r : StlToAscii.TerminalRenderer) (hr : StlToAscii.bufInv r) :
    StlToAscii.bufInv r.clear
    ∧ (∀ (t : StlToAscii.Triangle) (m : StlToAscii.Mat3)
        (L : StlToAscii.Vector3) (cam : ℝ), StlToAscii.bufInv (r.drawTriangle t m L cam))
    ∧ (∀ (p1 p2 p3 : StlToAscii.ScreenPoint) (ci : ℤ)
        (vns : Option (StlToAscii.Vector3 × StlToAscii.Vector3 × StlToAscii.Vector3))
        (ld : Option StlToAscii.Vector3), 3 ≤ ci → ci ≤ 9 →
        StlToAscii.bufInv (r.rasterizeTriangle p1 p2 p3 ci vns ld))
    ∧ StlToAscii.bufInv r.render.1
    ∧ (∀ y x, r.indexBuffer y x ≠ -1 →
        0 ≤ r.indexBuffer y x
        ∧ (r.indexBuffer y x).toNat < StlToAscii.asciiChars.length
        ∧ 3 ≤ r.indexBuffer y x) := by
  refine ⟨⟨?_, ?_⟩, ?_, ?_, ⟨?_, ?_⟩, ?_⟩
  · intro y x
    simp only [StlToAscii.TerminalRenderer.clear]
    split_ifs
    · exact Or.inl rfl
    · exact hr.1 y x
  · intro y x
    exact hr.2 y x
  · intro t m L cam
    exact StlToAscii.drawTriangle_bufInv r hr t m L cam
  · intro p1 p2 p3 ci vns ld h3 h9
    exact StlToAscii.rasterize_bufInv r hr p1 p2 p3 ci vns ld h3 h9
  · intro y x
    exact hr.1 y x
  · intro y x
    simp only [StlToAscii.TerminalRenderer.render]
    split_ifs
    · exact hr.1 y x
    · exact hr.2 y x
  · intro y x hne
    rcases hr.1 y x with h | ⟨h3, h9⟩
    · exact absurd h hne
    · have h10 : StlToAscii.asciiChars.length = 10 := rfl
      refine ⟨by omega, by omega, h3⟩

/-- C9 witness: the invariant hypotheses discharged at a concrete
renderer whose buffers hold the sentinel everywhere. -/
theorem claim_C9_witness :
    StlToAscii.bufInv (StlToAscii.TerminalRenderer.clear
      ⟨2, 2, false, fun _ _ => ' ', fun _ _ => -1, fun _ _ => -1, fun _ _ => none⟩)
    ∧ StlToAscii.bufInv (StlToAscii.TerminalRenderer.rasterizeTriangle
      ⟨2, 2, false, fun _ _ => ' ', fun _ _ => -1, fun _ _ => -1, fun _ _ => none⟩
      ⟨0, 0, 0⟩ ⟨3, 0, 0⟩ ⟨0, 3, 0⟩ 5 none none) := by
  have hinv : StlToAscii.bufInv
      ⟨2, 2, false, fun _ _ => ' ', fun _ _ => -1, fun _ _ => -1, fun _ _ => none⟩ :=
    ⟨fun _ _ => Or.inl rfl, fun _ _ => Or.inl rfl⟩
  exact ⟨(claim_C9 _ hinv).1,
    (claim_C9 _ hinv).2.2.1 ⟨0, 0, 0⟩ ⟨3, 0, 0⟩ ⟨0, 3, 0⟩ 5 none none
      (by norm_num) (by norm_num)⟩
